import Mathlib

/-!
Verification development for the OpenApoc `TileView` camera / tile-rendering
subsystem (`src/game/ui/tileview/tileview.cpp`).

Floating-point quantities of the C++ code are embedded as rationals (`Rat`);
C++ `int` values as `Int`.  C++ enum class values are embedded as `Int`
constants with their enumeration order.  Operations mutating the `TileView`
object are embedded as functions `TileViewState → ... → TileViewState`.
-/

namespace OpenApoc

/-- Two-component vector, mirroring the engine's `Vec2<T>`. -/
structure Vec2 (α : Type) where
  x : α
  y : α
deriving DecidableEq, Repr

/-- Three-component vector, mirroring the engine's `Vec3<T>`. -/
structure Vec3 (α : Type) where
  x : α
  y : α
  z : α
deriving DecidableEq, Repr

/-- Enum `TileViewMode::Isometric`. -/
def isometricMode : Int := 0

/-- Enum `TileViewMode::Strategy`. -/
def strategyMode : Int := 1

/-- Enum `TileView::Mode::City`. -/
def modeCity : Int := 0

/-- Enum `TileView::Mode::Battle`. -/
def modeBattle : Int := 1

/-- Enum `LayerDrawingMode::UpToCurrentLevel`. -/
def ldmUpToCurrentLevel : Int := 0

/-- Enum `LayerDrawingMode::AllLevels`. -/
def ldmAllLevels : Int := 1

/-- Enum `LayerDrawingMode::OnlyCurrentLevel`. -/
def ldmOnlyCurrentLevel : Int := 2

/-- C++ `float` → `int` conversion truncates toward zero. -/
def ratTrunc (q : Rat) : Int := if q < 0 then Int.ceil q else Int.floor q

/-- Componentwise truncation of a `Vec3<float>` to `Vec3<int>`. -/
def truncVec3 (v : Vec3 Rat) : Vec3 Int := ⟨ratTrunc v.x, ratTrunc v.y, ratTrunc v.z⟩

/-- Mutable state of a `TileView` object: the fields of the C++ class that the
scroll / selection / render logic reads and writes. -/
structure TileViewState where
  mapSize : Vec3 Int
  isoTileSize : Vec3 Int
  stratTileSize : Vec2 Int
  viewMode : Int
  mode : Int
  scrollUp : Bool
  scrollDown : Bool
  scrollLeft : Bool
  scrollRight : Bool
  dpySize : Vec2 Int
  currentZLevel : Int
  selectedTilePosition : Vec3 Int
  maxZDraw : Int
  centerPos : Vec3 Rat
  isoScrollSpeed : Vec2 Rat
  stratScrollSpeed : Vec2 Rat
  layerDrawingMode : Int
deriving DecidableEq, Repr

/-- Modelled from the spec: `tileToScreenCoords` is declared in `tileview.h`,
which is not among the provided sources.  Spec section 4.1 gives the isometric
forward transform `screen.x = (tile.x - tile.y) * isoTileSize.x;
screen.y = (tile.x + tile.y) * isoTileSize.y - tile.z * isoTileSize.z` and
says the strategy-mode transform is a simple axis-aligned scale. -/
def tileToScreenCoords (isoTileSize : Vec3 Int) (stratTileSize : Vec2 Int)
    (vm : Int) (c : Vec3 Rat) : Vec2 Rat :=
  if vm = isometricMode then
    ⟨(c.x - c.y) * (isoTileSize.x : Rat),
     (c.x + c.y) * (isoTileSize.y : Rat) - c.z * (isoTileSize.z : Rat)⟩
  else if vm = strategyMode then
    ⟨c.x * (stratTileSize.x : Rat), c.y * (stratTileSize.y : Rat)⟩
  else ⟨0, 0⟩

/-- Modelled from the spec: `screenToTileCoords` is declared in `tileview.h`,
which is not among the provided sources.  Spec section 4.1: the inverse
transform solves the 2x2 linear system for `(tile.x, tile.y)` given a target
z-plane; strategy mode is an axis-aligned scale. -/
def screenToTileCoords (isoTileSize : Vec3 Int) (stratTileSize : Vec2 Int)
    (vm : Int) (s : Vec2 Rat) (z : Rat) : Vec3 Rat :=
  if vm = isometricMode then
    let u : Rat := s.x / (isoTileSize.x : Rat)
    let v : Rat := (s.y + z * (isoTileSize.z : Rat)) / (isoTileSize.y : Rat)
    ⟨(u + v) / 2, (v - u) / 2, z⟩
  else if vm = strategyMode then
    ⟨s.x / (stratTileSize.x : Rat), s.y / (stratTileSize.y : Rat), z⟩
  else ⟨0, 0, z⟩

/-- Modelled from the spec: the `clamp` helper used by `TileView::setZLevel`
comes from framework headers that are not among the provided sources; the spec
describes it as clamping the value into the closed interval. -/
def clamp (v lo hi : Int) : Int := if v < lo then lo else if v > hi then hi else v

/-- C++ truncating integer division, used for `dpySize.x / 2`. -/
def cppDiv (a b : Int) : Int := if 0 ≤ a then a / b else -((-a) / b)

/-- Embeds `TileView::getScreenOffset` (tileview.cpp:497-502): half the display
size minus the projected camera center, converted to `Vec2<int>`. -/
def getScreenOffset (st : TileViewState) : Vec2 Int :=
  let so := tileToScreenCoords st.isoTileSize st.stratTileSize st.viewMode st.centerPos
  ⟨ratTrunc ((cppDiv st.dpySize.x 2 : Int) - so.x),
   ratTrunc ((cppDiv st.dpySize.y 2 : Int) - so.y)⟩

/-- Embeds `TileView::setScreenCenterTile(Vec3<float>)` (tileview.cpp:504-528):
clamps each axis of the requested center into `[0, mapSize.axis]` and stores
it as the camera center. -/
def setScreenCenterTile3 (st : TileViewState) (center : Vec3 Rat) : TileViewState :=
  let cx : Rat :=
    if center.x < 0 then 0
    else if center.x > (st.mapSize.x : Rat) then (st.mapSize.x : Rat)
    else center.x
  let cy : Rat :=
    if center.y < 0 then 0
    else if center.y > (st.mapSize.y : Rat) then (st.mapSize.y : Rat)
    else center.y
  let cz : Rat :=
    if center.z < 0 then 0
    else if center.z > (st.mapSize.z : Rat) then (st.mapSize.z : Rat)
    else center.z
  { st with centerPos := ⟨cx, cy, cz⟩ }

/-- Embeds `TileView::setScreenCenterTile(Vec2<float>)` (tileview.cpp:530-533). -/
def setScreenCenterTile2 (st : TileViewState) (center : Vec2 Rat) : TileViewState :=
  setScreenCenterTile3 st ⟨center.x, center.y, (st.currentZLevel : Rat)⟩

/-- Embeds `TileView::setSelectedTilePosition` (tileview.cpp:537-552): stores
the new position, then clamps negative axes to 0 and axes at or beyond the map
size to `size - 1`. -/
def setSelectedTilePosition (st : TileViewState) (p : Vec3 Int) : TileViewState :=
  let x1 := if p.x < 0 then 0 else p.x
  let y1 := if p.y < 0 then 0 else p.y
  let z1 := if p.z < 0 then 0 else p.z
  let x2 := if x1 ≥ st.mapSize.x then st.mapSize.x - 1 else x1
  let y2 := if y1 ≥ st.mapSize.y then st.mapSize.y - 1 else y1
  let z2 := if z1 ≥ st.mapSize.z then st.mapSize.z - 1 else z1
  { st with selectedTilePosition := ⟨x2, y2, z2⟩ }

/-- Embeds `TileView::setZLevel` (tileview.cpp:477-481): clamps the level into
`[1, maxZDraw]` and re-centers the camera at the new level minus one. -/
def setZLevel (st : TileViewState) (zLevel : Int) : TileViewState :=
  let st1 := { st with currentZLevel := clamp zLevel 1 st.maxZDraw }
  setScreenCenterTile3 st1
    ⟨st1.centerPos.x, st1.centerPos.y, ((st1.currentZLevel - 1 : Int) : Rat)⟩

/-- Embeds `TileView::setViewMode` (tileview.cpp:493). -/
def setViewMode (st : TileViewState) (newMode : Int) : TileViewState :=
  { st with viewMode := newMode }

/-- Embeds `TileView::setLayerDrawingMode` (tileview.cpp:485-489): the layer
drawing mode is only updated when the view is in Battle mode. -/
def setLayerDrawingMode (st : TileViewState) (m : Int) : TileViewState :=
  if st.mode = modeBattle then { st with layerDrawingMode := m } else st

/-- Embeds the per-tick scroll update at the top of `TileView::render`
(tileview.cpp:186-224): computes the new (unclamped) camera center from the
scroll-intent flags and the mode's scroll speed.  The second component records
whether the unknown-view-mode `LogError` branch was taken. -/
def scrollNewPos (st : TileViewState) : Vec3 Rat × Bool :=
  if st.viewMode = isometricMode then
    let p0 := st.centerPos
    let p1 := if st.scrollLeft then
        { p0 with x := p0.x - st.isoScrollSpeed.x, y := p0.y + st.isoScrollSpeed.y } else p0
    let p2 := if st.scrollRight then
        { p1 with x := p1.x + st.isoScrollSpeed.x, y := p1.y - st.isoScrollSpeed.y } else p1
    let p3 := if st.scrollUp then
        { p2 with y := p2.y - st.isoScrollSpeed.y, x := p2.x - st.isoScrollSpeed.x } else p2
    let p4 := if st.scrollDown then
        { p3 with y := p3.y + st.isoScrollSpeed.y, x := p3.x + st.isoScrollSpeed.x } else p3
    (p4, false)
  else if st.viewMode = strategyMode then
    let p0 := st.centerPos
    let p1 := if st.scrollLeft then { p0 with x := p0.x - st.stratScrollSpeed.x } else p0
    let p2 := if st.scrollRight then { p1 with x := p1.x + st.stratScrollSpeed.x } else p1
    let p3 := if st.scrollUp then { p2 with y := p2.y - st.stratScrollSpeed.y } else p2
    let p4 := if st.scrollDown then { p3 with y := p3.y + st.stratScrollSpeed.y } else p3
    (p4, false)
  else
    (st.centerPos, true)

/-- Composes the scroll update with the `setScreenCenterTile(newPos)` call at
tileview.cpp:226: the camera-center effect of one render tick. -/
def renderScrollUpdate (st : TileViewState) : TileViewState :=
  setScreenCenterTile3 st (scrollNewPos st).1

/-- Embeds the `EVENT_MOUSE_MOVE` branch of `TileView::eventOccurred`
(tileview.cpp:146-154): the mouse position, with its y coordinate adjusted by
`+ 4 - 20`, has the screen offset subtracted and is inverse-transformed at
z-plane `currentZLevel - 1`; the (truncated) result becomes the selected tile. -/
def mouseMoveHandler (st : TileViewState) (mouseX mouseY : Rat) : TileViewState :=
  let so := getScreenOffset st
  let p := screenToTileCoords st.isoTileSize st.stratTileSize st.viewMode
      ⟨mouseX - (so.x : Rat), mouseY + 4 - 20 - (so.y : Rat)⟩
      ((st.currentZLevel - 1 : Int) : Rat)
  setSelectedTilePosition st (truncVec3 p)

/-- Embeds the `EVENT_FINGER_MOVE` branch of `TileView::eventOccurred`
(tileview.cpp:155-176): the drag delta is converted into tile space in the
current view mode's basis and subtracted from the camera center. -/
def fingerMoveHandler (st : TileViewState) (dx dy : Rat) : TileViewState :=
  let d : Vec3 Rat :=
    if st.viewMode = isometricMode then
      let ax := dx / (st.isoTileSize.x : Rat)
      let ay := dy / (st.isoTileSize.y : Rat)
      ⟨ax + ay, ay - ax, 0⟩
    else
      ⟨dx / (st.stratTileSize.x : Rat), dy / (st.stratTileSize.y : Rat), 0⟩
  setScreenCenterTile3 st
    ⟨st.centerPos.x - d.x, st.centerPos.y - d.y, st.centerPos.z - d.z⟩

/-- Keyboard keys handled by the `EVENT_KEY_DOWN` branch of
`TileView::eventOccurred` (tileview.cpp:68-127); palette and debug keys, which
do not touch the modelled state, are collapsed into `other`. -/
inductive Key where
  | up
  | down
  | left
  | right
  | s
  | w
  | a
  | d
  | r
  | f
  | other
deriving DecidableEq

/-- Embeds the `EVENT_KEY_DOWN` switch of `TileView::eventOccurred`
(tileview.cpp:68-127): arrows set scroll-intent flags; s/w/a/d/r/f nudge the
selected tile by one, guarded so it stays inside the map. -/
def keyDownHandler (st : TileViewState) (k : Key) : TileViewState :=
  match k with
  | Key.up => { st with scrollUp := true }
  | Key.down => { st with scrollDown := true }
  | Key.left => { st with scrollLeft := true }
  | Key.right => { st with scrollRight := true }
  | Key.s =>
      if st.selectedTilePosition.y < st.mapSize.y - 1 then
        { st with selectedTilePosition :=
            { st.selectedTilePosition with y := st.selectedTilePosition.y + 1 } }
      else st
  | Key.w =>
      if st.selectedTilePosition.y > 0 then
        { st with selectedTilePosition :=
            { st.selectedTilePosition with y := st.selectedTilePosition.y - 1 } }
      else st
  | Key.a =>
      if st.selectedTilePosition.x > 0 then
        { st with selectedTilePosition :=
            { st.selectedTilePosition with x := st.selectedTilePosition.x - 1 } }
      else st
  | Key.d =>
      if st.selectedTilePosition.x < st.mapSize.x - 1 then
        { st with selectedTilePosition :=
            { st.selectedTilePosition with x := st.selectedTilePosition.x + 1 } }
      else st
  | Key.r =>
      if st.selectedTilePosition.z < st.mapSize.z - 1 then
        { st with selectedTilePosition :=
            { st.selectedTilePosition with z := st.selectedTilePosition.z + 1 } }
      else st
  | Key.f =>
      if st.selectedTilePosition.z > 0 then
        { st with selectedTilePosition :=
            { st.selectedTilePosition with z := st.selectedTilePosition.z - 1 } }
      else st
  | Key.other => st

/-- Kinds of tile objects relevant to the render logic: `TileObject::Type`
collapsed to Ground, Unit and everything else. -/
inductive ObjType where
  | ground
  | unit
  | item
  | otherTy
deriving DecidableEq, Repr

/-- A drawable tile object: an identity (standing in for the C++ shared
pointer) together with its `getType()` result. -/
structure TileObj where
  oid : Nat
  ty : ObjType
deriving DecidableEq, Repr

/-- The slice of the `TileMap` interface that `TileView::render` consults:
per-tile, per-layer ordered object lists (`drawnObjects`) and the per-tile
intersecting-object lists, indexed by `(x, y, z)`. -/
structure TMap where
  layerCount : Int
  drawnObjects : Int → Int → Int → Int → List TileObj
  intersectingObjects : Int → Int → Int → List TileObj

/-- Integer half-open range `[lo, hi)` as a list, the iteration space of a C++
`for (int i = lo; i < hi; i++)` loop. -/
def intRange (lo hi : Int) : List Int :=
  (List.range (hi - lo).toNat).map (fun i => lo + (i : Int))

/-- Embeds the `layerDrawingMode` switch of `TileView::render`
(tileview.cpp:241-258): starting from the defaults `zFrom = 0, zTo = maxZDraw`,
the three known modes override the pair; any other value keeps the defaults
(the switch has no default case and logs nothing). -/
def renderZRange (st : TileViewState) : Int × Int :=
  if st.layerDrawingMode = ldmUpToCurrentLevel then (0, st.currentZLevel)
  else if st.layerDrawingMode = ldmAllLevels then (0, st.maxZDraw)
  else if st.layerDrawingMode = ldmOnlyCurrentLevel then (st.currentZLevel - 1, st.currentZLevel)
  else (0, st.maxZDraw)

/-- Which highlight image pair `TileView::render` picks for the selected tile:
filled, empty or background. -/
inductive ImgKind where
  | filled
  | empty
  | background
deriving DecidableEq, Repr

/-- First object of a list whose type is not Ground; embeds the
`drawBackBeforeThis` search of tileview.cpp:346-352. -/
def firstNonGround : List TileObj → Option TileObj
  | [] => none
  | o :: rest => if o.ty ≠ ObjType.ground then some o else firstNonGround rest

/-- Embeds the per-z-level selection setup of `TileView::render`
(tileview.cpp:330-378): in Battle mode with the isometric view, when the
selected tile's z is at or above the drawn level `z` and its x/y lie in the
visible rectangle, it yields the highlight position on this level, the object
the back bracket is drawn before, and the image pair chosen (filled when a
unit intersects the tile on the exact selected level, empty when none does,
background when the drawn level is below the selected one). -/
def selectionSetup (M : TMap) (st : TileViewState) (z minX maxX minY maxY : Int) :
    Option (Vec3 Int × Option TileObj × ImgKind) :=
  if st.mode = modeBattle ∧ st.viewMode = isometricMode then
    if st.selectedTilePosition.z ≥ z ∧
        st.selectedTilePosition.x ≥ minX ∧ st.selectedTilePosition.x < maxX ∧
        st.selectedTilePosition.y ≥ minY ∧ st.selectedTilePosition.y < maxY then
      let pos : Vec3 Int := ⟨st.selectedTilePosition.x, st.selectedTilePosition.y, z⟩
      let back := firstNonGround (M.drawnObjects pos.x pos.y pos.z 0)
      let kind :=
        if st.selectedTilePosition.z = z then
          if (M.intersectingObjects pos.x pos.y pos.z).any
              (fun o => o.ty == ObjType.unit) then
            ImgKind.filled
          else ImgKind.empty
        else ImgKind.background
      some (pos, back, kind)
    else none
  else none

/-- The highlight image pair chosen on the drawn level `z`, if any. -/
def selImageKind (M : TMap) (st : TileViewState) (z minX maxX minY maxY : Int) :
    Option ImgKind :=
  (selectionSetup M st z minX maxX minY maxY).map (fun t => t.2.2)

/-- One draw call issued by `TileView::render`: an object's `draw`, or one of
the two selection-highlight images. -/
inductive REvent where
  | obj : TileObj → REvent
  | selBack : REvent
  | selFront : REvent
deriving DecidableEq, Repr

/-- Embeds the selected-tile branch of the tile loop (tileview.cpp:389-412):
objects are drawn in list order, with the back selection image drawn just
before `drawBackBeforeThis` (or after everything when that is null), and the
front selection image drawn last. -/
def drawTileSelected (objs : List TileObj) (back : Option TileObj) : List REvent :=
  (objs.flatMap (fun o =>
      (if back = some o then [REvent.selBack] else []) ++ [REvent.obj o]))
    ++ (if back = none then [REvent.selBack] else []) ++ [REvent.selFront]

/-- Embeds the draw loops of `TileView::render` (tileview.cpp:325-427): for
each z in the range picked by the layer-drawing mode, for each layer, for each
y then x in the visible rectangle, the tile's objects are drawn in list order;
the selected tile on layer 0 additionally gets its highlight images. -/
def renderDrawEvents (M : TMap) (st : TileViewState) (minX maxX minY maxY : Int) :
    List REvent :=
  let zr := renderZRange st
  (intRange zr.1 zr.2).flatMap (fun z =>
    let sel := selectionSetup M st z minX maxX minY maxY
    (intRange 0 M.layerCount).flatMap (fun layer =>
      (intRange minY maxY).flatMap (fun y =>
        (intRange minX maxX).flatMap (fun x =>
          let objs := M.drawnObjects x y z layer
          match sel with
          | some (pos, back, _) =>
              if x = pos.x ∧ y = pos.y ∧ layer = 0 then drawTileSelected objs back
              else objs.map REvent.obj
          | none => objs.map REvent.obj))))

/-- The z-levels the render pass should draw, written from the spec's words:
`UpToCurrentLevel` draws 0 up to (excluding) the current level, `AllLevels`
draws 0 up to `maxZDraw`, `OnlyCurrentLevel` draws only `currentZLevel - 1`. -/
def zRangeSpec (st : TileViewState) : List Int :=
  if st.layerDrawingMode = ldmUpToCurrentLevel then intRange 0 st.currentZLevel
  else if st.layerDrawingMode = ldmAllLevels then intRange 0 st.maxZDraw
  else if st.layerDrawingMode = ldmOnlyCurrentLevel then [st.currentZLevel - 1]
  else []

/-- The object draw order written from the spec's words: per z-level in the
mode's range, per layer, per tile of the visible rectangle in scan order, per
object in list order. -/
def renderObjsSpec (M : TMap) (st : TileViewState) (minX maxX minY maxY : Int) :
    List TileObj :=
  (zRangeSpec st).flatMap (fun z =>
    (intRange 0 M.layerCount).flatMap (fun layer =>
      (intRange minY maxY).flatMap (fun y =>
        (intRange minX maxX).flatMap (fun x => M.drawnObjects x y z layer))))

/-- Projects a draw-event list onto the objects drawn, in order. -/
def objsOf (l : List REvent) : List TileObj :=
  l.filterMap (fun e => match e with | REvent.obj o => some o | _ => none)

/-- The camera-center invariant: each axis lies in `[0, mapSize.axis]`. -/
def centerInBounds (st : TileViewState) : Prop :=
  0 ≤ st.centerPos.x ∧ st.centerPos.x ≤ (st.mapSize.x : Rat) ∧
  0 ≤ st.centerPos.y ∧ st.centerPos.y ≤ (st.mapSize.y : Rat) ∧
  0 ≤ st.centerPos.z ∧ st.centerPos.z ≤ (st.mapSize.z : Rat)

/-- The selected-tile invariant: each axis lies in `[0, mapSize.axis - 1]`. -/
def selInBounds (st : TileViewState) : Prop :=
  0 ≤ st.selectedTilePosition.x ∧ st.selectedTilePosition.x ≤ st.mapSize.x - 1 ∧
  0 ≤ st.selectedTilePosition.y ∧ st.selectedTilePosition.y ≤ st.mapSize.y - 1 ∧
  0 ≤ st.selectedTilePosition.z ∧ st.selectedTilePosition.z ≤ st.mapSize.z - 1

/-- Clamping an integer tile coordinate to the map bounds, written from the
spec's words ("then clamps to map bounds"): each axis into `[0, size - 1]`. -/
def clampToMapBounds (ms : Vec3 Int) (p : Vec3 Int) : Vec3 Int :=
  ⟨max 0 (min (ms.x - 1) p.x), max 0 (min (ms.y - 1) p.y), max 0 (min (ms.z - 1) p.z)⟩

/-- A Battle-mode view over a 10×10×5 map with isoTileSize (32,16,8), carrying
the constructor's initial values (tileview.cpp:10-17 and 31-47). -/
def stBattle : TileViewState where
  mapSize := ⟨10, 10, 5⟩
  isoTileSize := ⟨32, 16, 8⟩
  stratTileSize := ⟨8, 8⟩
  viewMode := isometricMode
  mode := modeBattle
  scrollUp := false
  scrollDown := false
  scrollLeft := false
  scrollRight := false
  dpySize := ⟨640, 480⟩
  currentZLevel := 1
  selectedTilePosition := ⟨0, 0, 0⟩
  maxZDraw := 5
  centerPos := ⟨0, 0, 0⟩
  isoScrollSpeed := ⟨1/2, 1/2⟩
  stratScrollSpeed := ⟨2, 2⟩
  layerDrawingMode := ldmUpToCurrentLevel

/-- The same view constructed in City mode (tileview.cpp:21-30). -/
def stCity : TileViewState :=
  { stBattle with mode := modeCity, layerDrawingMode := ldmAllLevels }

/-- A view whose layer-drawing-mode field holds an out-of-enumeration value. -/
def stUnknownLdm : TileViewState := { stBattle with layerDrawingMode := 5 }

/-- A view whose view-mode field holds an out-of-enumeration value. -/
def stUnknownVm : TileViewState := { stBattle with viewMode := 7 }

/-- A Battle view whose selected tile sits on z-level 2. -/
def stSelDeep : TileViewState := { stBattle with selectedTilePosition := ⟨0, 0, 2⟩ }

/-- A tile map with no objects anywhere. -/
def emptyTMap : TMap where
  layerCount := 1
  drawnObjects := fun _ _ _ _ => []
  intersectingObjects := fun _ _ _ => []

lemma clampRat_bounds (v hi : Rat) (h : 0 ≤ hi) :
    0 ≤ (if v < 0 then 0 else if v > hi then hi else v) ∧
    (if v < 0 then 0 else if v > hi then hi else v) ≤ hi := by
  split_ifs with h1 h2
  · exact ⟨le_refl 0, h⟩
  · exact ⟨h, le_refl hi⟩
  · exact ⟨le_of_not_lt h1, le_of_not_lt h2⟩

lemma setScreenCenterTile3_bounds (st : TileViewState) (c : Vec3 Rat)
    (hx : 0 ≤ st.mapSize.x) (hy : 0 ≤ st.mapSize.y) (hz : 0 ≤ st.mapSize.z) :
    centerInBounds (setScreenCenterTile3 st c) := by
  have hx : (0 : Rat) ≤ (st.mapSize.x : Rat) := by exact_mod_cast hx
  have hy : (0 : Rat) ≤ (st.mapSize.y : Rat) := by exact_mod_cast hy
  have hz : (0 : Rat) ≤ (st.mapSize.z : Rat) := by exact_mod_cast hz
  simp only [centerInBounds, setScreenCenterTile3]
  exact ⟨(clampRat_bounds c.x _ hx).1, (clampRat_bounds c.x _ hx).2,
    (clampRat_bounds c.y _ hy).1, (clampRat_bounds c.y _ hy).2,
    (clampRat_bounds c.z _ hz).1, (clampRat_bounds c.z _ hz).2⟩

/-- C1: for every tile coordinate and fixed z, the tile→screen transform
followed by the screen→tile inverse at that z recovers the coordinate exactly
(over the rationals, i.e. up to floating-point tolerance), in both the
Isometric and the Strategy view modes, for nonzero tile sizes. -/
theorem tileToScreen_screenToTile_roundtrip
    (isoT : Vec3 Int) (stratT : Vec2 Int) (t : Vec3 Rat)
    (hix : isoT.x ≠ 0) (hiy : isoT.y ≠ 0) (hsx : stratT.x ≠ 0) (hsy : stratT.y ≠ 0) :
    screenToTileCoords isoT stratT isometricMode
        (tileToScreenCoords isoT stratT isometricMode t) t.z = t ∧
    screenToTileCoords isoT stratT strategyMode
        (tileToScreenCoords isoT stratT strategyMode t) t.z = t := by
  obtain ⟨tx, ty, tz⟩ := t
  have hx : ((isoT.x : Rat)) ≠ 0 := Int.cast_ne_zero.mpr hix
  have hy : ((isoT.y : Rat)) ≠ 0 := Int.cast_ne_zero.mpr hiy
  have hu : ((stratT.x : Rat)) ≠ 0 := Int.cast_ne_zero.mpr hsx
  have hv : ((stratT.y : Rat)) ≠ 0 := Int.cast_ne_zero.mpr hsy
  constructor
  · simp [screenToTileCoords, tileToScreenCoords, isometricMode, strategyMode, Vec3.mk.injEq]
    constructor <;> (field_simp; try ring)
  · simp [screenToTileCoords, tileToScreenCoords, isometricMode, strategyMode, Vec3.mk.injEq]
    constructor <;> (field_simp; try ring)

/-- Concrete round trip: the roundtrip theorem applied at tile (3,5,2) with
isoTileSize (32,16,8) and stratTileSize (8,8). -/
theorem tileToScreen_screenToTile_roundtrip_app :
    screenToTileCoords ⟨32, 16, 8⟩ ⟨8, 8⟩ isometricMode
        (tileToScreenCoords ⟨32, 16, 8⟩ ⟨8, 8⟩ isometricMode ⟨3, 5, 2⟩) 2 = ⟨3, 5, 2⟩ ∧
    screenToTileCoords ⟨32, 16, 8⟩ ⟨8, 8⟩ strategyMode
        (tileToScreenCoords ⟨32, 16, 8⟩ ⟨8, 8⟩ strategyMode ⟨3, 5, 2⟩) 2 = ⟨3, 5, 2⟩ :=
  tileToScreen_screenToTile_roundtrip ⟨32, 16, 8⟩ ⟨8, 8⟩ ⟨3, 5, 2⟩
    (by decide) (by decide) (by decide) (by decide)

/-- C2: every call path into `setScreenCenterTile` — direct calls, the
per-tick scroll update in `render`, and finger-drag panning — leaves the
camera center clamped into `[0, mapSize.axis]` on every axis (for nonnegative
map sizes); in particular on the (10,10,5) map, requesting center (-5,-5,0)
stores the clamped center (0,0,0). -/
theorem camera_center_clamped :
    (∀ (st : TileViewState) (c : Vec3 Rat),
        0 ≤ st.mapSize.x → 0 ≤ st.mapSize.y → 0 ≤ st.mapSize.z →
        centerInBounds (setScreenCenterTile3 st c)) ∧
    (∀ st : TileViewState,
        0 ≤ st.mapSize.x → 0 ≤ st.mapSize.y → 0 ≤ st.mapSize.z →
        centerInBounds (renderScrollUpdate st)) ∧
    (∀ (st : TileViewState) (dx dy : Rat),
        0 ≤ st.mapSize.x → 0 ≤ st.mapSize.y → 0 ≤ st.mapSize.z →
        centerInBounds (fingerMoveHandler st dx dy)) ∧
    (setScreenCenterTile3 stBattle ⟨-5, -5, 0⟩).centerPos = ⟨0, 0, 0⟩ := by
  refine ⟨fun st c hx hy hz => setScreenCenterTile3_bounds st c hx hy hz,
    fun st hx hy hz => setScreenCenterTile3_bounds st _ hx hy hz,
    fun st dx dy hx hy hz => setScreenCenterTile3_bounds st _ hx hy hz, ?_⟩
  decide

/-- Camera clamping exercised at the spec's scenario input. -/
theorem camera_center_clamped_app :
    centerInBounds (setScreenCenterTile3 stBattle ⟨-5, -5, 0⟩) :=
  camera_center_clamped.1 stBattle ⟨-5, -5, 0⟩ (by decide) (by decide) (by decide)

/-- C4: after `setZLevel(v)` the current z-level equals `clamp(v, 1, maxZDraw)`
where `maxZDraw` is the map's z size. -/
theorem setZLevel_clamps (st : TileViewState) (v : Int)
    (h : st.maxZDraw = st.mapSize.z) :
    (setZLevel st v).currentZLevel = clamp v 1 st.mapSize.z := by
  rw [← h]
  rfl

/-- Z-level clamping exercised at a concrete out-of-range input. -/
theorem setZLevel_clamps_app :
    (setZLevel stBattle 99).currentZLevel = clamp 99 1 stBattle.mapSize.z :=
  setZLevel_clamps stBattle 99 (by decide)

/-- C10: `setLayerDrawingMode` updates the layer-drawing mode (and nothing
else) only when the view was constructed in Battle mode; in any other mode the
call leaves the whole state unchanged. -/
theorem setLayerDrawingMode_battle_only (st : TileViewState) (m : Int) :
    (st.mode = modeBattle →
      setLayerDrawingMode st m = { st with layerDrawingMode := m }) ∧
    (st.mode ≠ modeBattle → setLayerDrawingMode st m = st) := by
  constructor
  · intro h
    simp [setLayerDrawingMode, h]
  · intro h
    simp [setLayerDrawingMode, h]

/-- Layer-drawing-mode gating exercised on a City-mode view. -/
theorem setLayerDrawingMode_battle_only_app :
    setLayerDrawingMode stCity ldmOnlyCurrentLevel = stCity :=
  (setLayerDrawingMode_battle_only stCity ldmOnlyCurrentLevel).2 (by decide)

/-- C8: switching the view mode leaves the camera center unchanged, and after
switching to Strategy the per-tick scroll update moves the center by the
axis-aligned strategy scroll-speed vector. -/
theorem setViewMode_center_and_strategy_scroll (st : TileViewState) (m : Int) :
    (setViewMode st m).centerPos = st.centerPos ∧
    (scrollNewPos (setViewMode st strategyMode)).1 =
      ⟨st.centerPos.x - (if st.scrollLeft then st.stratScrollSpeed.x else 0)
          + (if st.scrollRight then st.stratScrollSpeed.x else 0),
       st.centerPos.y - (if st.scrollUp then st.stratScrollSpeed.y else 0)
          + (if st.scrollDown then st.stratScrollSpeed.y else 0),
       st.centerPos.z⟩ := by
  refine ⟨rfl, ?_⟩
  simp only [scrollNewPos, setViewMode, strategyMode, isometricMode]
  norm_num
  cases st.scrollLeft <;> cases st.scrollRight <;> cases st.scrollUp <;>
      cases st.scrollDown <;> simp [Vec3.mk.injEq]

lemma setSelectedTilePosition_bounds (st : TileViewState) (p : Vec3 Int)
    (hx : 1 ≤ st.mapSize.x) (hy : 1 ≤ st.mapSize.y) (hz : 1 ≤ st.mapSize.z) :
    selInBounds (setSelectedTilePosition st p) := by
  simp only [selInBounds, setSelectedTilePosition]
  split_ifs <;> omega

lemma keyDownHandler_bounds (st : TileViewState) (k : Key) (h : selInBounds st) :
    selInBounds (keyDownHandler st k) := by
  simp only [selInBounds] at h
  cases k <;> simp only [keyDownHandler, selInBounds] <;> (try split_ifs) <;>
    simp_all <;> omega

lemma setSelectedTilePosition_eq_clamp (st : TileViewState) (p : Vec3 Int)
    (hx : 1 ≤ st.mapSize.x) (hy : 1 ≤ st.mapSize.y) (hz : 1 ≤ st.mapSize.z) :
    (setSelectedTilePosition st p).selectedTilePosition = clampToMapBounds st.mapSize p := by
  simp only [setSelectedTilePosition, clampToMapBounds, Vec3.mk.injEq, max_def, min_def]
  refine ⟨?_, ?_, ?_⟩ <;> split_ifs <;> omega

/-- C3: every update path of the selected tile — `setSelectedTilePosition`
(hence also pointer-move handling, which goes through it) and the keyboard
selection keys — leaves the selected tile inside `[0, mapSize.axis - 1]` on
each axis; in particular selecting (20,20,1) on the 10×10×5 map stores the
clamped selection (9,9,1). -/
theorem selected_tile_clamped :
    (∀ (st : TileViewState) (p : Vec3 Int),
        1 ≤ st.mapSize.x → 1 ≤ st.mapSize.y → 1 ≤ st.mapSize.z →
        selInBounds (setSelectedTilePosition st p)) ∧
    (∀ (st : TileViewState) (mouseX mouseY : Rat),
        1 ≤ st.mapSize.x → 1 ≤ st.mapSize.y → 1 ≤ st.mapSize.z →
        selInBounds (mouseMoveHandler st mouseX mouseY)) ∧
    (∀ (st : TileViewState) (k : Key),
        selInBounds st → selInBounds (keyDownHandler st k)) ∧
    (setSelectedTilePosition stBattle ⟨20, 20, 1⟩).selectedTilePosition = ⟨9, 9, 1⟩ := by
  refine ⟨fun st p hx hy hz => setSelectedTilePosition_bounds st p hx hy hz,
    fun st mouseX mouseY hx hy hz => setSelectedTilePosition_bounds st _ hx hy hz,
    fun st k h => keyDownHandler_bounds st k h, ?_⟩
  decide

/-- Selection clamping exercised at the spec's scenario input and on one
keyboard update. -/
theorem selected_tile_clamped_app :
    selInBounds (setSelectedTilePosition stBattle ⟨20, 20, 1⟩) ∧
    selInBounds (keyDownHandler stBattle Key.s) :=
  ⟨selected_tile_clamped.1 stBattle ⟨20, 20, 1⟩ (by decide) (by decide) (by decide),
   selected_tile_clamped.2.2.1 stBattle Key.s (by unfold selInBounds; decide)⟩

/-- C7: a pointer-move event selects the tile obtained by adjusting the device
y coordinate by the fixed vertical offset `+ 4 - 20`, subtracting the screen
offset, inverse-transforming at z-plane `currentZLevel - 1`, truncating, and
clamping to map bounds — and it leaves the camera center unchanged. -/
theorem mouse_move_selects_clamped_tile (st : TileViewState) (mouseX mouseY : Rat)
    (hx : 1 ≤ st.mapSize.x) (hy : 1 ≤ st.mapSize.y) (hz : 1 ≤ st.mapSize.z) :
    (mouseMoveHandler st mouseX mouseY).centerPos = st.centerPos ∧
    (mouseMoveHandler st mouseX mouseY).selectedTilePosition =
      clampToMapBounds st.mapSize (truncVec3 (screenToTileCoords st.isoTileSize
        st.stratTileSize st.viewMode
        ⟨mouseX - ((getScreenOffset st).x : Rat),
         mouseY + 4 - 20 - ((getScreenOffset st).y : Rat)⟩
        ((st.currentZLevel - 1 : Int) : Rat))) := by
  exact ⟨rfl, setSelectedTilePosition_eq_clamp st _ hx hy hz⟩

/-- Pointer-move selection exercised at a concrete event position. -/
theorem mouse_move_selects_clamped_tile_app :
    (mouseMoveHandler stBattle 100 50).centerPos = stBattle.centerPos ∧
    (mouseMoveHandler stBattle 100 50).selectedTilePosition =
      clampToMapBounds stBattle.mapSize (truncVec3 (screenToTileCoords stBattle.isoTileSize
        stBattle.stratTileSize stBattle.viewMode
        ⟨100 - ((getScreenOffset stBattle).x : Rat),
         50 + 4 - 20 - ((getScreenOffset stBattle).y : Rat)⟩
        ((stBattle.currentZLevel - 1 : Int) : Rat))) :=
  mouse_move_selects_clamped_tile stBattle 100 50 (by decide) (by decide) (by decide)

/-- C5 counterexample: with the selected tile on z-level 2, the render pass
already chooses the background highlight images on drawn level 0 — two levels
behind the selection, not one behind as the claim states. -/
theorem selection_background_not_only_one_behind :
    selImageKind emptyTMap stSelDeep 0 0 10 0 10 = some ImgKind.background ∧
    (0 : Int) ≠ stSelDeep.selectedTilePosition.z - 1 := by
  constructor
  · rfl
  · decide

/-- C5 amended: on the selected tile the filled images are chosen exactly when
the drawn z-level equals the selected z-level and a unit-type object
intersects the tile; the empty images exactly when it equals the selected
z-level and no unit intersects; and the background images exactly when the
drawn z-level is strictly below the selected z-level — in each case under the
render guards (Battle mode, Isometric view, selected x/y inside the visible
rectangle). -/
theorem selection_image_characterization (M : TMap) (st : TileViewState)
    (z minX maxX minY maxY : Int) :
    (selImageKind M st z minX maxX minY maxY = some ImgKind.filled ↔
      (st.mode = modeBattle ∧ st.viewMode = isometricMode ∧
       minX ≤ st.selectedTilePosition.x ∧ st.selectedTilePosition.x < maxX ∧
       minY ≤ st.selectedTilePosition.y ∧ st.selectedTilePosition.y < maxY ∧
       st.selectedTilePosition.z = z ∧
       (M.intersectingObjects st.selectedTilePosition.x st.selectedTilePosition.y z).any
         (fun o => o.ty == ObjType.unit) = true)) ∧
    (selImageKind M st z minX maxX minY maxY = some ImgKind.empty ↔
      (st.mode = modeBattle ∧ st.viewMode = isometricMode ∧
       minX ≤ st.selectedTilePosition.x ∧ st.selectedTilePosition.x < maxX ∧
       minY ≤ st.selectedTilePosition.y ∧ st.selectedTilePosition.y < maxY ∧
       st.selectedTilePosition.z = z ∧
       (M.intersectingObjects st.selectedTilePosition.x st.selectedTilePosition.y z).any
         (fun o => o.ty == ObjType.unit) = false)) ∧
    (selImageKind M st z minX maxX minY maxY = some ImgKind.background ↔
      (st.mode = modeBattle ∧ st.viewMode = isometricMode ∧
       minX ≤ st.selectedTilePosition.x ∧ st.selectedTilePosition.x < maxX ∧
       minY ≤ st.selectedTilePosition.y ∧ st.selectedTilePosition.y < maxY ∧
       z < st.selectedTilePosition.z)) := by
  simp only [selImageKind, selectionSetup]
  by_cases hmv : st.mode = modeBattle ∧ st.viewMode = isometricMode
  · rw [if_pos hmv]
    by_cases hg : st.selectedTilePosition.z ≥ z ∧
        st.selectedTilePosition.x ≥ minX ∧ st.selectedTilePosition.x < maxX ∧
        st.selectedTilePosition.y ≥ minY ∧ st.selectedTilePosition.y < maxY
    · rw [if_pos hg]
      obtain ⟨hz1, hx1, hx2, hy1, hy2⟩ := hg
      obtain ⟨hm, hv⟩ := hmv
      by_cases hz : st.selectedTilePosition.z = z
      · rw [if_pos hz]
        by_cases hu : (M.intersectingObjects st.selectedTilePosition.x
            st.selectedTilePosition.y z).any (fun o => o.ty == ObjType.unit) = true
        · subst hz
          rw [if_pos hu]
          simp_all
        · subst hz
          rw [if_neg hu]
          simp_all
      · rw [if_neg hz]
        simp_all
        omega
    · rw [if_neg hg]
      refine ⟨⟨fun h => by simp at h, fun h => absurd ?_ hg⟩,
              ⟨fun h => by simp at h, fun h => absurd ?_ hg⟩,
              ⟨fun h => by simp at h, fun h => absurd ?_ hg⟩⟩
      · obtain ⟨_, _, h3, h4, h5, h6, h7, _⟩ := h
        exact ⟨by omega, h3, h4, h5, h6⟩
      · obtain ⟨_, _, h3, h4, h5, h6, h7, _⟩ := h
        exact ⟨by omega, h3, h4, h5, h6⟩
      · obtain ⟨_, _, h3, h4, h5, h6, h7⟩ := h
        exact ⟨by omega, h3, h4, h5, h6⟩
  · rw [if_neg hmv]
    refine ⟨⟨fun h => by simp at h, fun h => absurd ⟨h.1, h.2.1⟩ hmv⟩,
            ⟨fun h => by simp at h, fun h => absurd ⟨h.1, h.2.1⟩ hmv⟩,
            ⟨fun h => by simp at h, fun h => absurd ⟨h.1, h.2.1⟩ hmv⟩⟩

/-- C6 counterexample: with an unknown layer-drawing-mode value (5) the render
pass silently keeps the default z-range (0, maxZDraw) and raises no
unknown-enum log — the log flag of the scroll update, the only unknown-enum
logging in render, stays false because the view mode is valid. -/
theorem unknown_layer_mode_not_logged :
    stUnknownLdm.layerDrawingMode ≠ ldmUpToCurrentLevel ∧
    stUnknownLdm.layerDrawingMode ≠ ldmAllLevels ∧
    stUnknownLdm.layerDrawingMode ≠ ldmOnlyCurrentLevel ∧
    renderZRange stUnknownLdm = (0, 5) ∧
    (scrollNewPos stUnknownLdm).2 = false := by
  refine ⟨by decide, by decide, by decide, by decide, ?_⟩
  rfl

/-- C6 amended: an unknown view-mode value makes the render scroll update log
an error and apply no scroll delta (the log flag is raised exactly for unknown
view modes); an unknown layer-drawing-mode value is not logged and silently
degrades to the default full z-range (0, maxZDraw). -/
theorem unknown_enum_safe_defaults (st : TileViewState) :
    (st.viewMode ≠ isometricMode → st.viewMode ≠ strategyMode →
      scrollNewPos st = (st.centerPos, true)) ∧
    ((scrollNewPos st).2 = true ↔
      (st.viewMode ≠ isometricMode ∧ st.viewMode ≠ strategyMode)) ∧
    (st.layerDrawingMode ≠ ldmUpToCurrentLevel → st.layerDrawingMode ≠ ldmAllLevels →
      st.layerDrawingMode ≠ ldmOnlyCurrentLevel →
      renderZRange st = (0, st.maxZDraw)) := by
  refine ⟨?_, ?_, ?_⟩
  · intro h1 h2
    simp [scrollNewPos, h1, h2]
  · simp only [scrollNewPos]
    split_ifs with h1 h2 <;> simp_all
  · intro h1 h2 h3
    simp [renderZRange, h1, h2, h3]

/-- Unknown-enum defaults exercised at concrete states with out-of-range view
mode and layer-drawing mode. -/
theorem unknown_enum_safe_defaults_app :
    scrollNewPos stUnknownVm = (stUnknownVm.centerPos, true) ∧
    renderZRange stUnknownLdm = (0, stUnknownLdm.maxZDraw) :=
  ⟨(unknown_enum_safe_defaults stUnknownVm).1 (by decide) (by decide),
   (unknown_enum_safe_defaults stUnknownLdm).2.2 (by decide) (by decide) (by decide)⟩

lemma objsOf_append (a b : List REvent) : objsOf (a ++ b) = objsOf a ++ objsOf b := by
  simp [objsOf]

lemma objsOf_flatMap {β : Type} (l : List β) (f : β → List REvent) :
    objsOf (l.flatMap f) = l.flatMap (fun b => objsOf (f b)) := by
  induction l with
  | nil => rfl
  | cons a t ih => simp [List.flatMap_cons, objsOf_append, ih]

lemma objsOf_map_obj (objs : List TileObj) : objsOf (objs.map REvent.obj) = objs := by
  induction objs with
  | nil => rfl
  | cons a t ih => simp [objsOf, List.filterMap_cons] at *; exact ih

lemma objsOf_drawTileSelected (objs : List TileObj) (back : Option TileObj) :
    objsOf (drawTileSelected objs back) = objs := by
  simp only [drawTileSelected, objsOf_append]
  have h1 : objsOf (objs.flatMap fun o =>
      (if back = some o then [REvent.selBack] else []) ++ [REvent.obj o]) = objs := by
    induction objs with
    | nil => rfl
    | cons a t ih =>
        simp only [List.flatMap_cons, objsOf_append, ih]
        by_cases hb : back = some a <;> simp [hb, objsOf]
  have h2 : objsOf (if back = none then [REvent.selBack] else []) = [] := by
    split_ifs <;> rfl
  have h3 : objsOf [REvent.selFront] = [] := rfl
  simp [h1, h2, h3]

lemma flatMap_congr {β γ : Type} (l : List β) (f g : β → List γ)
    (h : ∀ b ∈ l, f b = g b) : l.flatMap f = l.flatMap g := by
  induction l with
  | nil => rfl
  | cons a t ih =>
      simp only [List.flatMap_cons, h a (by simp)]
      rw [ih (fun b hb => h b (by simp [hb]))]

lemma intRange_one (lo hi : Int) (h : hi - lo = 1) : intRange lo hi = [lo] := by
  unfold intRange
  rw [h]
  have h1 : List.range (1 : Int).toNat = [0] := rfl
  rw [h1]
  simp

lemma objsOf_renderDrawEvents (M : TMap) (st : TileViewState) (minX maxX minY maxY : Int) :
    objsOf (renderDrawEvents M st minX maxX minY maxY) =
      (intRange (renderZRange st).1 (renderZRange st).2).flatMap (fun z =>
        (intRange 0 M.layerCount).flatMap (fun layer =>
          (intRange minY maxY).flatMap (fun y =>
            (intRange minX maxX).flatMap (fun x => M.drawnObjects x y z layer)))) := by
  simp only [renderDrawEvents]
  rw [objsOf_flatMap]
  refine flatMap_congr _ _ _ (fun z _ => ?_)
  rw [objsOf_flatMap]
  refine flatMap_congr _ _ _ (fun layer _ => ?_)
  rw [objsOf_flatMap]
  refine flatMap_congr _ _ _ (fun y _ => ?_)
  rw [objsOf_flatMap]
  refine flatMap_congr _ _ _ (fun x _ => ?_)
  rcases hsel : selectionSetup M st z minX maxX minY maxY with _ | ⟨pos, back, k⟩
  · simp [objsOf_map_obj]
  · simp only []
    split_ifs with hc

    · exact objsOf_drawTileSelected _ _
    · exact objsOf_map_obj _

/-- C9: the render pass draws exactly the z-range picked by the layer-drawing
mode — `[0, currentZLevel)` for UpToCurrentLevel, `[0, maxZDraw)` for
AllLevels, only `currentZLevel - 1` for OnlyCurrentLevel — and within each
z-level iterates layers, then the visible tile rectangle in scan order,
drawing each tile's objects in list order. -/
theorem render_draw_z_range_and_order (M : TMap) (st : TileViewState)
    (minX maxX minY maxY : Int)
    (h : st.layerDrawingMode = ldmUpToCurrentLevel ∨
         st.layerDrawingMode = ldmAllLevels ∨
         st.layerDrawingMode = ldmOnlyCurrentLevel) :
    objsOf (renderDrawEvents M st minX maxX minY maxY) =
      renderObjsSpec M st minX maxX minY maxY := by
  rw [objsOf_renderDrawEvents]
  simp only [renderObjsSpec, zRangeSpec, renderZRange]
  rcases h with h | h | h
  · simp [h, ldmUpToCurrentLevel, ldmAllLevels, ldmOnlyCurrentLevel]
  · simp [h, ldmUpToCurrentLevel, ldmAllLevels, ldmOnlyCurrentLevel]
  · simp only [h, ldmUpToCurrentLevel, ldmAllLevels, ldmOnlyCurrentLevel]
    norm_num
    rw [intRange_one _ _ (by omega)]
    simp

/-- Draw order exercised on a concrete map and state. -/
theorem render_draw_z_range_and_order_app :
    objsOf (renderDrawEvents emptyTMap stBattle 0 10 0 10) =
      renderObjsSpec emptyTMap stBattle 0 10 0 10 :=
  render_draw_z_range_and_order emptyTMap stBattle 0 10 0 10 (Or.inl (by decide))

end OpenApoc
